import Mathlib

/-!
Shallow embedding of the Pyzotplus core (src/pyzotplus/database.py and
src/pyzotplus/sync.py): the SQLite-backed local store, the schema
migration runner, and the pull/push sync engine.

Modelling conventions:
* SQLite tables become Lean lists of row structures; row ids are the
  INTEGER PRIMARY KEY values (SQLite assigns max existing id + 1).
* The JSON blob stored in the `data` column is modelled as the structured
  item itself (`json.dumps` / `json.loads` compose to the identity on
  well-formed items, so serialisation is the identity in the model).
* Python exceptions become explicit error results; a pass that raises
  stops at the raising statement and leaves the database in the state
  committed so far (each helper in database.py commits its own work).
* `datetime.utcnow().isoformat()` is an opaque string supplied by the
  caller of the model (`now`).
-/

namespace Pyzotplus

/-- Nested `data` dict of a Zotero item (the part holding the title). -/
structure ZItemData where
  title : String
  extra : String
deriving DecidableEq, Repr, Inhabited

/-- A Zotero item as the remote serves it: top-level key and version plus
the nested data dict. -/
structure ZItem where
  key : String
  version : Nat
  data : ZItemData
deriving DecidableEq, Repr, Inhabited

/-- Row of the `items` table (schema v1 plus the v2 `version`/`synced_at`
columns; both added columns are nullable at the SQL level). -/
structure ItemRow where
  id : Nat
  key : String
  title : String
  collection_id : Option Nat
  data : ZItem
  version : Option Nat
  synced_at : Option String
deriving DecidableEq, Repr, Inhabited

/-- Row of the `collections` table. -/
structure CollectionRow where
  id : Nat
  key : String
  name : String
deriving DecidableEq, Repr, Inhabited

/-- Row of the `tags` table (`item_id` references items ON DELETE CASCADE). -/
structure TagRow where
  id : Nat
  item_id : Nat
  tag : String
deriving DecidableEq, Repr, Inhabited

/-- Row of the `attachments` table (`item_id` references items ON DELETE CASCADE). -/
structure AttachmentRow where
  id : Nat
  item_id : Nat
  filename : String
  path : String
deriving DecidableEq, Repr, Inhabited

/-- Row of the `notes` table (`item_id` references items ON DELETE CASCADE). -/
structure NoteRow where
  id : Nat
  item_id : Nat
  content : String
deriving DecidableEq, Repr, Inhabited

/-- Entry of the `fulltext` FTS5 virtual table (not covered by FK cascades). -/
structure FulltextRow where
  item_id : Nat
  content : String
deriving DecidableEq, Repr, Inhabited

/-- The local database state: the six entity tables plus the two
`sync_meta` rows (`library_version`, `last_sync`), each `none` when the
corresponding row is absent. -/
structure DB where
  items : List ItemRow
  collections : List CollectionRow
  tags : List TagRow
  attachments : List AttachmentRow
  notes : List NoteRow
  fulltext : List FulltextRow
  library_version : Option Nat
  last_sync : Option String
deriving DecidableEq, Repr, Inhabited

/-- SQLite rowid assignment for an INTEGER PRIMARY KEY: one more than the
largest id in use. -/
def freshId (ids : List Nat) : Nat :=
  ids.foldr Nat.max 0 + 1

/-- The `SELECT id, version FROM items WHERE key = ?` lookup (keys are
UNIQUE, `fetchone` returns the first match). -/
def findByKey (items : List ItemRow) (key : String) : Option ItemRow :=
  items.find? (fun r => r.key == key)

/-- database.add_item: INSERT a new items row and return its rowid.
`collection_id` defaults to NULL at the call sites modelled here and
`version` is stored as the given integer. -/
def add_item (db : DB) (key title : String) (data : ZItem)
    (collection_id : Option Nat) (version : Nat)
    (synced_at : Option String) : DB × Nat :=
  let rid := freshId (db.items.map ItemRow.id)
  ({ db with
      items := db.items ++
        [{ id := rid, key := key, title := title,
           collection_id := collection_id, data := data,
           version := some version, synced_at := synced_at }] },
   rid)

/-- Field map passed to database.update_item (`**fields`): `none` means
the column is not mentioned; for nullable columns the inner Option is the
stored value. -/
structure ItemPatch where
  title : Option String
  data : Option ZItem
  version : Option (Option Nat)
  synced_at : Option (Option String)
  collection_id : Option (Option Nat)
deriving DecidableEq, Repr, Inhabited

/-- Apply an UPDATE field map to one row: mentioned columns are replaced,
unmentioned columns (and id/key, which no caller ever updates) are kept. -/
def applyPatch (p : ItemPatch) (r : ItemRow) : ItemRow :=
  { r with
    title := p.title.getD r.title
    data := p.data.getD r.data
    version := p.version.getD r.version
    synced_at := p.synced_at.getD r.synced_at
    collection_id := p.collection_id.getD r.collection_id }

/-- database.update_item: UPDATE items SET ... WHERE id = ?. -/
def update_item (db : DB) (item_id : Nat) (p : ItemPatch) : DB :=
  { db with
    items := db.items.map (fun r => if r.id = item_id then applyPatch p r else r) }

/-- database.delete_item: DELETE FROM items WHERE id = ? (firing the
ON DELETE CASCADE clauses of tags/attachments/notes, since init_db turns
PRAGMA foreign_keys ON) followed by the explicit
DELETE FROM fulltext WHERE item_id = ?. -/
def delete_item (db : DB) (item_id : Nat) : DB :=
  { db with
    items := db.items.filter (fun r => r.id ≠ item_id)
    tags := db.tags.filter (fun t => t.item_id ≠ item_id)
    attachments := db.attachments.filter (fun a => a.item_id ≠ item_id)
    notes := db.notes.filter (fun n => n.item_id ≠ item_id)
    fulltext := db.fulltext.filter (fun f => f.item_id ≠ item_id) }

/-- database.delete_collection: UPDATE items SET collection_id = NULL
WHERE collection_id = ?, then DELETE FROM collections WHERE id = ?. -/
def delete_collection (db : DB) (cid : Nat) : DB :=
  { db with
    items := db.items.map
      (fun r => if r.collection_id = some cid then { r with collection_id := none } else r)
    collections := db.collections.filter (fun c => c.id ≠ cid) }

/-- database.get_last_sync_version: the stored `library_version`, 0 when
the sync_meta row is absent. -/
def get_last_sync_version (db : DB) : Nat :=
  db.library_version.getD 0

/-- database.update_last_sync: INSERT OR REPLACE both sync_meta rows. -/
def update_last_sync (db : DB) (version : Nat) (now : String) : DB :=
  { db with library_version := some version, last_sync := some now }

example : freshId [1, 3, 2] = 4 := by decide

/-- Errors raised while a sync pass runs: a failed remote fetch
(network/HTTP exception from the client), the Python TypeError raised by
comparing a NULL stored version with an int in pull_changes, and the
version-conflict failure of a remote write. -/
inductive ZError where
  | fetchFailed (key : String)
  | typeError (key : String)
  | versionConflict (key : String)
deriving DecidableEq, Repr

/-- Modelled from the spec: the remote Zotero client
(src/pyzotplus/zotero.py is not among the sources; spec §6 specifies the
remote as an abstract versioned store). The server holds items by key and
a global library version counter. -/
structure Server where
  items : List (String × ZItem)
  libVersion : Nat
deriving DecidableEq, Repr, Inhabited

/-- Modelled from the spec: `fetchItem(key)` returns the full serialized
item, failing when the key is unknown. -/
def Server.fetchItem (s : Server) (key : String) : Option ZItem :=
  (s.items.find? (fun p => p.1 == key)).map Prod.snd

/-- Modelled from the spec: `listVersionsSince` / the unscoped version map
used by push — each remote key mapped to its current version. -/
def Server.itemVersions (s : Server) : List (String × Nat) :=
  s.items.map (fun p => (p.1, p.2.version))

/-- Modelled from the spec: `currentLibraryVersion()`. -/
def Server.lastModifiedVersion (s : Server) : Nat :=
  s.libVersion

/-- Modelled from the spec: the server state after a successful write of
`it` — the stored copy under `it.key` becomes `it` stamped with the next
library version, and the global counter advances to that version. -/
def Server.afterWrite (s : Server) (it : ZItem) : Server :=
  { items := s.items.map
      (fun p => if p.1 == it.key then (p.1, { it with version := s.libVersion + 1 }) else p),
    libVersion := s.libVersion + 1 }

/-- Modelled from the spec: `writeItem(item, expectedVersion)` — fails
with a version conflict when `expectedVersion` does not match the stored
version (or the key is unknown); otherwise the server assigns the next
library version to the written item and returns it. -/
def Server.writeItem (s : Server) (it : ZItem) (expectedVersion : Nat) :
    Option (Server × Nat) :=
  match s.fetchItem it.key with
  | none => none
  | some cur =>
    if cur.version = expectedVersion then some (s.afterWrite it, s.libVersion + 1)
    else none

/-- Lookup in a key/version map, i.e. `remote_versions.get(key)` before
the `, 0` default is applied. -/
def lookupVer (m : List (String × Nat)) (key : String) : Option Nat :=
  (m.find? (fun p => p.1 == key)).map Prod.snd

/-- Outcome of an entire pull or push pass: the database state when the
pass finished or raised, and the exception if one was raised. -/
structure PassResult where
  db : DB
  err : Option ZError
deriving DecidableEq, Repr

/-- Loop body of sync.pull_changes for one `(key, version)` entry of the
remote change map: fetch the item, look the key up locally, then insert
(key unknown), overwrite title/data/version/synced_at (stored version
strictly lower) or skip (stored version ≥ remote). A NULL stored version
makes Python's `row["version"] < version` raise TypeError. -/
def pullKey (s : Server) (now : String) (db : DB) (kv : String × Nat) :
    Except ZError DB :=
  match s.fetchItem kv.1 with
  | none => .error (.fetchFailed kv.1)
  | some item =>
    let title := item.data.title
    match findByKey db.items kv.1 with
    | none => .ok (add_item db kv.1 title item none kv.2 (some now)).1
    | some row =>
      match row.version with
      | none => .error (.typeError kv.1)
      | some v =>
        if v < kv.2 then
          .ok (update_item db row.id
            { title := some title, data := some item,
              version := some (some kv.2), synced_at := some (some now),
              collection_id := none })
        else .ok db

/-- The `for key, version in remote_versions.items()` loop of
pull_changes: an exception stops the loop, keeping the rows committed so
far. -/
def pullLoop (s : Server) (now : String) :
    List (String × Nat) → DB → PassResult
  | [], db => { db := db, err := none }
  | kv :: rest, db =>
    match pullKey s now db kv with
    | .error e => { db := db, err := some e }
    | .ok db' => pullLoop s now rest db'

/-- sync.pull_changes. The change map returned by
`zot.item_versions(since=last_version)` is a parameter (`changes`): the
`since` filtering happens inside the remote client. After the loop the
sync metadata is set to `zot.last_modified_version()`; a raised exception
skips that update. -/
def pull_changes (s : Server) (changes : List (String × Nat)) (now : String)
    (db : DB) : PassResult :=
  let r := pullLoop s now changes db
  match r.err with
  | some _ => r
  | none => { db := update_last_sync r.db s.lastModifiedVersion now, err := none }

/-- One `zot.update_item(item, last_modified=...)` call made by push,
recording the item sent and the version declared as expected. -/
structure WriteCall where
  item : ZItem
  expectedVersion : Nat
deriving DecidableEq, Repr

/-- State threaded through the push loop: local database, remote server,
and the write calls made so far. -/
structure PushState where
  db : DB
  server : Server
  writes : List WriteCall
deriving DecidableEq, Repr

/-- Outcome of a push pass: final database, final server state, write
calls made, and the exception if one was raised. -/
structure PushResult where
  db : DB
  server : Server
  writes : List WriteCall
  err : Option ZError
deriving DecidableEq, Repr

/-- Loop body of sync.push_changes for one local items row. `vmap` is the
version map snapshot taken at pass start. `row["version"] or 0` maps a
NULL stored version to 0; `remote_versions.get(key, 0)` maps a missing
key to 0. Local newer: json-load the stored blob, set its key and
version, write it remotely, re-fetch the key and overwrite the local
data/version/synced_at. Remote newer: fetch and overwrite the same three
columns. Equal: no action. -/
def pushRow (vmap : List (String × Nat)) (now : String) (st : PushState)
    (row : ItemRow) : Except ZError PushState :=
  let key := row.key
  let local_version := row.version.getD 0
  let remote_version := (lookupVer vmap key).getD 0
  if local_version > remote_version then
    let item : ZItem := { row.data with key := key, version := remote_version }
    match st.server.writeItem item remote_version with
    | none => .error (.versionConflict key)
    | some (s', _) =>
      match s'.fetchItem key with
      | none => .error (.fetchFailed key)
      | some updated =>
        .ok { db := update_item st.db row.id
                { title := none, data := some updated,
                  version := some (some updated.version),
                  synced_at := some (some now), collection_id := none },
              server := s',
              writes := st.writes ++ [{ item := item, expectedVersion := remote_version }] }
  else if remote_version > local_version then
    match st.server.fetchItem key with
    | none => .error (.fetchFailed key)
    | some item =>
      .ok { db := update_item st.db row.id
              { title := none, data := some item,
                version := some (some item.version),
                synced_at := some (some now), collection_id := none },
            server := st.server, writes := st.writes }
  else .ok st

/-- The `for row in conn.execute("SELECT id, key, version, data FROM items")`
loop of push_changes, iterating the snapshot of the items table taken when
the cursor starts (the loop only updates already-read rows by id and
never inserts). An exception stops the loop. -/
def pushLoop (vmap : List (String × Nat)) (now : String) :
    List ItemRow → PushState → PushResult
  | [], st => { db := st.db, server := st.server, writes := st.writes, err := none }
  | row :: rest, st =>
    match pushRow vmap now st row with
    | .error e => { db := st.db, server := st.server, writes := st.writes, err := some e }
    | .ok st' => pushLoop vmap now rest st'

/-- sync.push_changes: take the unscoped remote version map, run the loop
over all local items, then record `zot.last_modified_version()` (the
server counter after the pass's writes) in the sync metadata; a raised
exception skips the metadata update. -/
def push_changes (s : Server) (now : String) (db : DB) : PushResult :=
  let vmap := s.itemVersions
  let r := pushLoop vmap now db.items { db := db, server := s, writes := [] }
  match r.err with
  | some _ => r
  | none => { r with db := update_last_sync r.db r.server.lastModifiedVersion now }

/-- Logical schema of the database file: the PRAGMA user_version marker
and, per table (and per column added by a later migration), whether it
exists. -/
structure SchemaState where
  user_version : Nat
  hasItems : Bool
  hasCollections : Bool
  hasTags : Bool
  hasAttachments : Bool
  hasNotes : Bool
  hasFulltext : Bool
  itemsVersionCol : Bool
  itemsSyncedAtCol : Bool
  hasSyncMeta : Bool
  hasNoteTemplates : Bool
deriving DecidableEq, Repr, Inhabited

/-- A connection: the schema as the connection sees it and the schema
last committed to disk. -/
structure Conn where
  mem : SchemaState
  disk : SchemaState
deriving DecidableEq, Repr, Inhabited

/-- Events of a migration run, in order: a migration function ran, the
PRAGMA user_version marker was set, a commit happened. -/
inductive MigEvent where
  | applied (v : Nat)
  | setUserVersion (v : Nat)
  | committed
deriving DecidableEq, Repr

/-- Errors of a migration run: the RuntimeError raised when MIGRATIONS
has no entry for a required version, or an underlying SQL failure inside
a migration function. -/
inductive MigError where
  | noMigration (v : Nat)
  | sqlError (v : Nat)
deriving DecidableEq, Repr

/-- database._create_schema_v1: CREATE (without IF NOT EXISTS) the five
base tables and the fulltext virtual table; fails if any already exists. -/
def _create_schema_v1 (s : SchemaState) : Option SchemaState :=
  if s.hasItems || s.hasCollections || s.hasTags || s.hasAttachments
      || s.hasNotes || s.hasFulltext then none
  else
    some { s with hasItems := true, hasCollections := true, hasTags := true,
                  hasAttachments := true, hasNotes := true, hasFulltext := true }

/-- database._upgrade_schema_v2: ALTER TABLE items ADD the version and
synced_at columns (fails if items is missing or a column already exists)
and CREATE TABLE IF NOT EXISTS sync_meta. -/
def _upgrade_schema_v2 (s : SchemaState) : Option SchemaState :=
  if !s.hasItems || s.itemsVersionCol || s.itemsSyncedAtCol then none
  else some { s with itemsVersionCol := true, itemsSyncedAtCol := true,
                     hasSyncMeta := true }

/-- database._upgrade_schema_v3: CREATE TABLE IF NOT EXISTS note_templates. -/
def _upgrade_schema_v3 (s : SchemaState) : Option SchemaState :=
  some { s with hasNoteTemplates := true }

/-- The MIGRATIONS dict: {1: _create_schema_v1, 2: _upgrade_schema_v2,
3: _upgrade_schema_v3}; `.get` on any other version yields none. -/
def MIGRATIONS (v : Nat) : Option (SchemaState → Option SchemaState) :=
  if v = 1 then some _create_schema_v1
  else if v = 2 then some _upgrade_schema_v2
  else if v = 3 then some _upgrade_schema_v3
  else none

/-- The `for version in range(current + 1, target + 1)` loop of
database.migrate, over the explicit list of versions: an unregistered
version raises RuntimeError before anything else happens for it;
otherwise the migration runs, the marker is set, and the connection
commits, before the next version is considered. -/
def migrateLoop : List Nat → Conn → List MigEvent →
    Conn × List MigEvent × Option MigError
  | [], c, tr => (c, tr, none)
  | v :: rest, c, tr =>
    match MIGRATIONS v with
    | none => (c, tr, some (.noMigration v))
    | some f =>
      match f c.mem with
      | none => (c, tr, some (.sqlError v))
      | some s' =>
        let m : SchemaState := { s' with user_version := v }
        migrateLoop rest { mem := m, disk := m }
          (tr ++ [.applied v, .setUserVersion v, .committed])

/-- database.migrate: run the loop over versions current+1 .. target. -/
def migrate (c : Conn) (current target : Nat) :
    Conn × List MigEvent × Option MigError :=
  migrateLoop (List.range' (current + 1) (target - current)) c []

/-- database.SCHEMA_VERSION. -/
def SCHEMA_VERSION : Nat := 3

/-- database.init_db: open a connection on the given on-disk schema, read
PRAGMA user_version, and migrate when it is below SCHEMA_VERSION. -/
def init_db (disk : SchemaState) : Conn × List MigEvent × Option MigError :=
  let c : Conn := { mem := disk, disk := disk }
  if disk.user_version < SCHEMA_VERSION then migrate c disk.user_version SCHEMA_VERSION
  else (c, [], none)

/-- A freshly created database file: user_version 0, nothing exists. -/
def freshSchema : SchemaState :=
  { user_version := 0, hasItems := false, hasCollections := false,
    hasTags := false, hasAttachments := false, hasNotes := false,
    hasFulltext := false, itemsVersionCol := false, itemsSyncedAtCol := false,
    hasSyncMeta := false, hasNoteTemplates := false }

/-- The schema after migrations v1, v2, v3: marker 3, everything present. -/
def targetSchema : SchemaState :=
  { user_version := 3, hasItems := true, hasCollections := true,
    hasTags := true, hasAttachments := true, hasNotes := true,
    hasFulltext := true, itemsVersionCol := true, itemsSyncedAtCol := true,
    hasSyncMeta := true, hasNoteTemplates := true }

/-- The per-version event block of an orderly migration run. -/
def orderlyTrace (vs : List Nat) : List MigEvent :=
  vs.foldr (fun v acc => .applied v :: .setUserVersion v :: .committed :: acc) []

example : init_db freshSchema =
    ({ mem := targetSchema, disk := targetSchema }, orderlyTrace [1, 2, 3], none) := by
  decide

/-! Helper lemmas about the store primitives. -/

theorem findByKey_some_mem {items : List ItemRow} {key : String} {row : ItemRow}
    (h : findByKey items key = some row) : row ∈ items :=
  List.mem_of_find?_eq_some h

theorem findByKey_some_key {items : List ItemRow} {key : String} {row : ItemRow}
    (h : findByKey items key = some row) : row.key = key := by
  have h' := List.find?_some h
  simpa using h'

theorem findByKey_none_forall {items : List ItemRow} {key : String}
    (h : findByKey items key = none) : ∀ r ∈ items, r.key ≠ key := by
  intro r hr
  have h' := List.find?_eq_none.mp h r hr
  simpa using h'

theorem mem_update_item (db : DB) (row : ItemRow) (p : ItemPatch)
    (hrow : row ∈ db.items) :
    applyPatch p row ∈ (update_item db row.id p).items := by
  refine List.mem_map.mpr ⟨row, hrow, ?_⟩
  simp

/-- C1: for a changed key reported by the remote, pull inserts a new row
with the fetched version when the key is unknown locally, overwrites
title/data/version/synced_at when the stored version is strictly lower
(so that afterwards the local version equals the remote one and title and
data match the fetched item), and leaves the database unchanged when the
stored version is ≥ the remote one. -/
theorem pull_reconciles_changed_key (s : Server) (now : String) (db : DB)
    (key : String) (rv : Nat) (item : ZItem)
    (hf : s.fetchItem key = some item) :
    (findByKey db.items key = none →
      ∃ db', pullKey s now db (key, rv) = .ok db' ∧
        ∃ r ∈ db'.items, r.key = key ∧ r.version = some rv ∧
          r.title = item.data.title ∧ r.data = item ∧ r.synced_at = some now)
    ∧ (∀ row v, findByKey db.items key = some row → row.version = some v →
        (v < rv →
          ∃ db', pullKey s now db (key, rv) = .ok db' ∧
            ∃ r ∈ db'.items, r.id = row.id ∧ r.version = some rv ∧
              r.title = item.data.title ∧ r.data = item ∧ r.synced_at = some now)
        ∧ (rv ≤ v → pullKey s now db (key, rv) = .ok db)) := by
  constructor
  · intro hnone
    refine ⟨(add_item db key item.data.title item none rv (some now)).1, ?_, ?_⟩
    · simp [pullKey, hf, hnone]
    · have hmem :
          ({ id := freshId (db.items.map ItemRow.id), key := key,
             title := item.data.title, collection_id := none, data := item,
             version := some rv, synced_at := some now } : ItemRow) ∈
            (add_item db key item.data.title item none rv (some now)).1.items := by
        simp [add_item]
      exact ⟨_, hmem, rfl, rfl, rfl, rfl, rfl⟩
  · intro row v hrow hv
    constructor
    · intro hlt
      refine ⟨update_item db row.id
        { title := some item.data.title, data := some item,
          version := some (some rv), synced_at := some (some now),
          collection_id := none }, ?_, ?_⟩
      · simp [pullKey, hf, hrow, hv, hlt]
      · exact ⟨applyPatch
          { title := some item.data.title, data := some item,
            version := some (some rv), synced_at := some (some now),
            collection_id := none } row,
          mem_update_item db row _ (findByKey_some_mem hrow), rfl, rfl, rfl, rfl, rfl⟩
    · intro hge
      have hnlt : ¬ v < rv := not_lt.mpr hge
      simp [pullKey, hf, hrow, hv, hnlt]

/-- Fetched remote item used in concrete instances. -/
def wItem : ZItem :=
  { key := "K", version := 5, data := { title := "T", extra := "E" } }

/-- Concrete remote holding `wItem` under key "K". -/
def wServer : Server :=
  { items := [("K", wItem)], libVersion := 9 }

/-- Concrete stale local row for key "K" at version 3. -/
def wRowOld : ItemRow :=
  { id := 1, key := "K", title := "old", collection_id := some 7,
    data := default, version := some 3, synced_at := none }

/-- Concrete database holding only `wRowOld`. -/
def wDB : DB :=
  { items := [wRowOld], collections := [], tags := [], attachments := [],
    notes := [], fulltext := [], library_version := none, last_sync := none }

/-- Witness for C1: pulling key "K" at remote version 5 over a local row
at version 3 overwrites it to version 5 with the fetched title and data. -/
theorem pull_reconciles_changed_key_witness :
    ∃ db', pullKey wServer "t" wDB ("K", 5) = .ok db' ∧
      ∃ r ∈ db'.items, r.id = wRowOld.id ∧ r.version = some 5 ∧
        r.title = wItem.data.title ∧ r.data = wItem ∧ r.synced_at = some "t" :=
  ((pull_reconciles_changed_key wServer "t" wDB "K" 5 wItem (by decide)).2
    wRowOld 3 (by decide) (by decide)).1 (by decide)

/-! Helper lemmas about the remote server model. -/

theorem find?_ver_map (l : List (String × ZItem)) (key : String) :
    ((l.map (fun p => (p.1, p.2.version))).find? (fun q => q.1 == key))
      = ((l.find? (fun q => q.1 == key)).map (fun p => (p.1, p.2.version))) := by
  induction l with
  | nil => rfl
  | cons p rest ih =>
    simp only [List.map_cons, List.find?]
    cases h : p.1 == key
    · simpa [h] using ih
    · simp [h]

theorem lookupVer_itemVersions (s : Server) (key : String) :
    lookupVer s.itemVersions key = (s.fetchItem key).map ZItem.version := by
  unfold lookupVer Server.itemVersions Server.fetchItem
  rw [find?_ver_map]
  cases s.items.find? (fun q => q.1 == key) <;> rfl

theorem fetch_replace (l : List (String × ZItem)) (key : String) (n : ZItem)
    (h : (l.find? (fun q => q.1 == key)).isSome) :
    (((l.map (fun p => if p.1 == key then (p.1, n) else p)).find?
        (fun q => q.1 == key)).map Prod.snd) = some n := by
  induction l with
  | nil => simp at h
  | cons p rest ih =>
    cases hp : p.1 == key
    · simp only [List.find?, hp] at h
      simpa [List.find?, hp] using ih h
    · simp [List.find?, hp]

/-- The item push sends on a write: the stored blob with its key set to
the row's key and its version set to `v`, exactly as the loop body of
push_changes builds it. -/
def sentItem (row : ItemRow) (v : Nat) : ZItem :=
  { row.data with key := row.key, version := v }

/-- C2: during a push, a local item whose stored version exceeds the
remote's mapped version for its key is written remotely with the
last-known remote version declared as the expected version, and the local
row is then overwritten with the server's post-write item, whose version
is the newly assigned one (the advanced library version). -/
theorem push_writes_newer_local (now : String) (st : PushState) (row : ItemRow)
    (cur : ZItem)
    (hrow : row ∈ st.db.items)
    (hcur : st.server.fetchItem row.key = some cur)
    (hgt : cur.version < row.version.getD 0) :
    ∃ st', pushRow st.server.itemVersions now st row = .ok st' ∧
      st'.writes = st.writes ++
        [{ item := sentItem row cur.version, expectedVersion := cur.version }] ∧
      st'.server.libVersion = st.server.libVersion + 1 ∧
      st'.server.fetchItem row.key = some (sentItem row (st.server.libVersion + 1)) ∧
      ∃ r ∈ st'.db.items, r.id = row.id ∧
        r.version = some (st.server.libVersion + 1) ∧
        r.data = sentItem row (st.server.libVersion + 1) ∧
        r.synced_at = some now := by
  have hlook : lookupVer st.server.itemVersions row.key = some cur.version := by
    rw [lookupVer_itemVersions, hcur]; rfl
  have hfetchSome : (st.server.items.find? (fun q => q.1 == row.key)).isSome := by
    unfold Server.fetchItem at hcur
    cases hfind : st.server.items.find? (fun q => q.1 == row.key)
    · rw [hfind] at hcur; simp at hcur
    · rfl
  have hwrite : st.server.writeItem (sentItem row cur.version) cur.version =
      some (st.server.afterWrite (sentItem row cur.version), st.server.libVersion + 1) := by
    unfold Server.writeItem
    rw [show (sentItem row cur.version).key = row.key from rfl, hcur]
    simp
  have hfetch' : (st.server.afterWrite (sentItem row cur.version)).fetchItem row.key =
      some (sentItem row (st.server.libVersion + 1)) := by
    unfold Server.fetchItem Server.afterWrite
    rw [show (sentItem row cur.version).key = row.key from rfl]
    exact fetch_replace st.server.items row.key _ hfetchSome
  refine ⟨⟨update_item st.db row.id
      ⟨none, some (sentItem row (st.server.libVersion + 1)),
        some (some (st.server.libVersion + 1)), some (some now), none⟩,
      st.server.afterWrite (sentItem row cur.version),
      st.writes ++ [⟨sentItem row cur.version, cur.version⟩]⟩,
    ?_, rfl, rfl, hfetch', ?_⟩
  · show pushRow st.server.itemVersions now st row = _
    unfold pushRow
    simp only [hlook, Option.getD_some]
    rw [if_pos hgt]
    rw [show ({ key := row.key, version := cur.version, data := row.data.data } : ZItem)
          = sentItem row cur.version from rfl]
    simp only [hwrite, hfetch']
    rfl
  · exact ⟨_, mem_update_item st.db row _ hrow, rfl, rfl, rfl, rfl⟩

/-- Local row for the C2 witness: key "K" at out-of-band version 6. -/
def wRowV6 : ItemRow :=
  { id := 1, key := "K", title := "old", collection_id := none,
    data := wItem, version := some 6, synced_at := none }

/-- Database for the C2 witness, holding only `wRowV6`. -/
def wDBV6 : DB :=
  { items := [wRowV6], collections := [], tags := [], attachments := [],
    notes := [], fulltext := [], library_version := none, last_sync := none }

/-- Remote for the C2 witness: key "K" at version 5, library version 6. -/
def wServer6 : Server :=
  { items := [("K", { key := "K", version := 5,
                      data := { title := "T", extra := "E" } })],
    libVersion := 6 }

/-- Witness for C2: local version 6 versus remote version 5 — the write
declares expected version 5 and the local row ends at the newly assigned
version 7. -/
theorem push_writes_newer_local_witness :
    ∃ st', pushRow wServer6.itemVersions "t"
        { db := wDBV6, server := wServer6, writes := [] } wRowV6 = .ok st' ∧
      st'.writes = [] ++ [{ item := sentItem wRowV6 5, expectedVersion := 5 }] ∧
      st'.server.libVersion = wServer6.libVersion + 1 ∧
      st'.server.fetchItem wRowV6.key = some (sentItem wRowV6 (wServer6.libVersion + 1)) ∧
      ∃ r ∈ st'.db.items, r.id = wRowV6.id ∧
        r.version = some (wServer6.libVersion + 1) ∧
        r.data = sentItem wRowV6 (wServer6.libVersion + 1) ∧
        r.synced_at = some "t" :=
  push_writes_newer_local "t" { db := wDBV6, server := wServer6, writes := [] }
    wRowV6 { key := "K", version := 5, data := { title := "T", extra := "E" } }
    (by decide) (by decide) (by decide)

/-- Empty local database. -/
def emptyDB : DB :=
  { items := [], collections := [], tags := [], attachments := [],
    notes := [], fulltext := [], library_version := none, last_sync := none }

/-- Stale local row for the C3 scenario: key "K1", title "old", version 1. -/
def cxRow : ItemRow :=
  { id := 1, key := "K1", title := "old", collection_id := none,
    data := default, version := some 1, synced_at := none }

/-- Database holding only `cxRow`. -/
def cxDB : DB :=
  { items := [cxRow], collections := [], tags := [], attachments := [],
    notes := [], fulltext := [], library_version := none, last_sync := none }

/-- Remote copy of "K1" at version 2, whose nested title is "new". -/
def cxItemNew : ZItem :=
  { key := "K1", version := 2, data := { title := "new", extra := "" } }

/-- Remote holding `cxItemNew`. -/
def cxServer : Server :=
  { items := [("K1", cxItemNew)], libVersion := 2 }

/-- Counterexample for C3: with local "K1" at version 1 titled "old" and
the remote at version 2 titled "new", the push pass succeeds and
overwrites data/version, yet the row's title column still reads "old" —
push's remote-newer branch, unlike pull's, does not write the title. -/
theorem push_remote_newer_keeps_title_cex :
    cxServer.fetchItem "K1" = some cxItemNew ∧
    cxItemNew.data.title = "new" ∧
    (push_changes cxServer "t" cxDB).err = none ∧
    (push_changes cxServer "t" cxDB).db.items.map ItemRow.data = [cxItemNew] ∧
    (push_changes cxServer "t" cxDB).db.items.map ItemRow.version = [some 2] ∧
    (push_changes cxServer "t" cxDB).db.items.map ItemRow.title = ["old"] :=
  ⟨rfl, rfl, rfl, rfl, rfl, rfl⟩

theorem pushRow_remote_newer_eq (vmap : List (String × Nat)) (now : String)
    (st : PushState) (row : ItemRow) (item : ZItem)
    (hlt : row.version.getD 0 < (lookupVer vmap row.key).getD 0)
    (hfetch : st.server.fetchItem row.key = some item) :
    pushRow vmap now st row = .ok ⟨update_item st.db row.id
      ⟨none, some item, some (some item.version), some (some now), none⟩,
      st.server, st.writes⟩ := by
  have hngt : ¬ row.version.getD 0 > (lookupVer vmap row.key).getD 0 :=
    not_lt.mpr (le_of_lt hlt)
  unfold pushRow
  rw [if_neg hngt, if_pos hlt, hfetch]

/-- C3 amended: for a local item whose stored version is strictly lower
than the remote's mapped version, push fetches the remote copy and
overwrites the local row's data, version, and synced_at with the fetched
values (no remote write happens); the title and collection columns are
left unchanged. -/
theorem push_remote_newer_overwrites_data (vmap : List (String × Nat))
    (now : String) (st : PushState) (row : ItemRow) (item : ZItem)
    (hrow : row ∈ st.db.items)
    (hlt : row.version.getD 0 < (lookupVer vmap row.key).getD 0)
    (hfetch : st.server.fetchItem row.key = some item) :
    ∃ st', pushRow vmap now st row = .ok st' ∧ st'.server = st.server ∧
      st'.writes = st.writes ∧
      ∃ r ∈ st'.db.items, r.id = row.id ∧ r.key = row.key ∧ r.data = item ∧
        r.version = some item.version ∧ r.synced_at = some now ∧
        r.title = row.title ∧ r.collection_id = row.collection_id := by
  refine ⟨_, pushRow_remote_newer_eq vmap now st row item hlt hfetch, rfl, rfl, ?_⟩
  exact ⟨_, mem_update_item st.db row _ hrow, rfl, rfl, rfl, rfl, rfl, rfl, rfl⟩

/-- Witness for the amended C3: the concrete scenario of the
counterexample, run through the per-row step. -/
theorem push_remote_newer_overwrites_data_witness :
    ∃ st', pushRow cxServer.itemVersions "t"
        { db := cxDB, server := cxServer, writes := [] } cxRow = .ok st' ∧
      st'.server = cxServer ∧ st'.writes = [] ∧
      ∃ r ∈ st'.db.items, r.id = cxRow.id ∧ r.key = cxRow.key ∧
        r.data = cxItemNew ∧ r.version = some cxItemNew.version ∧
        r.synced_at = some "t" ∧ r.title = cxRow.title ∧
        r.collection_id = cxRow.collection_id :=
  push_remote_newer_overwrites_data cxServer.itemVersions "t"
    { db := cxDB, server := cxServer, writes := [] } cxRow cxItemNew
    (by decide) (by decide) (by decide)

/-! Metadata preservation of the per-item sync steps. -/

theorem pullKey_metadata {s : Server} {now : String} {db : DB}
    {kv : String × Nat} {db' : DB} (h : pullKey s now db kv = .ok db') :
    db'.library_version = db.library_version ∧ db'.last_sync = db.last_sync := by
  unfold pullKey at h
  split at h
  · cases h
  · split at h
    · injection h with h; subst h; exact ⟨rfl, rfl⟩
    · split at h
      · cases h
      · split at h
        · injection h with h; subst h; exact ⟨rfl, rfl⟩
        · injection h with h; subst h; exact ⟨rfl, rfl⟩

theorem pushRow_metadata {vmap : List (String × Nat)} {now : String}
    {st : PushState} {row : ItemRow} {st' : PushState}
    (h : pushRow vmap now st row = .ok st') :
    st'.db.library_version = st.db.library_version ∧
    st'.db.last_sync = st.db.last_sync := by
  unfold pushRow at h
  dsimp only at h
  split at h
  · split at h
    · cases h
    · split at h
      · cases h
      · injection h with h; subst h; exact ⟨rfl, rfl⟩
  · split at h
    · split at h
      · cases h
      · injection h with h; subst h; exact ⟨rfl, rfl⟩
    · injection h with h; subst h; exact ⟨rfl, rfl⟩

theorem pullLoop_metadata (s : Server) (now : String) (l : List (String × Nat)) :
    ∀ db : DB, (pullLoop s now l db).db.library_version = db.library_version ∧
      (pullLoop s now l db).db.last_sync = db.last_sync := by
  induction l with
  | nil => intro db; exact ⟨rfl, rfl⟩
  | cons kv rest ih =>
    intro db
    unfold pullLoop
    cases h : pullKey s now db kv with
    | error e => exact ⟨rfl, rfl⟩
    | ok db' =>
      have h1 := pullKey_metadata h
      have h2 := ih db'
      exact ⟨h2.1.trans h1.1, h2.2.trans h1.2⟩

theorem pushLoop_metadata (vmap : List (String × Nat)) (now : String)
    (l : List ItemRow) :
    ∀ st : PushState, (pushLoop vmap now l st).db.library_version = st.db.library_version ∧
      (pushLoop vmap now l st).db.last_sync = st.db.last_sync := by
  induction l with
  | nil => intro st; exact ⟨rfl, rfl⟩
  | cons row rest ih =>
    intro st
    unfold pushLoop
    cases h : pushRow vmap now st row with
    | error e => exact ⟨rfl, rfl⟩
    | ok st' =>
      have h1 := pushRow_metadata h
      have h2 := ih st'
      exact ⟨h2.1.trans h1.1, h2.2.trans h1.2⟩

/-- Remote item "B" used in the C4 scenario. -/
def c4Item : ZItem :=
  { key := "B", version := 1, data := { title := "b", extra := "" } }

/-- Remote for the C4 scenario, which knows "B" but not "A". -/
def c4Server : Server :=
  { items := [("B", c4Item)], libVersion := 1 }

/-- Counterexample for C4: with remote change map {"A": 1, "B": 1} where
fetching "A" raises and "B" is fetchable, the pull pass stops at "A" —
the error is not caught, "B" is never inserted, and the database
(including its sync metadata) is exactly the input one. -/
theorem pull_error_aborts_pass_cex :
    (c4Server.fetchItem "B").isSome = true ∧
    pull_changes c4Server [("A", 1), ("B", 1)] "t" emptyDB =
      { db := emptyDB, err := some (.fetchFailed "A") } :=
  ⟨rfl, rfl⟩

theorem pull_changes_eq_loop_of_err (s : Server) (changes : List (String × Nat))
    (now : String) (db : DB) (e : ZError)
    (h : (pullLoop s now changes db).err = some e) :
    pull_changes s changes now db = pullLoop s now changes db := by
  unfold pull_changes
  dsimp only
  rw [h]

theorem push_changes_eq_loop_of_err (s : Server) (now : String) (db : DB)
    (e : ZError)
    (h : (pushLoop s.itemVersions now db.items
        { db := db, server := s, writes := [] }).err = some e) :
    push_changes s now db =
      pushLoop s.itemVersions now db.items { db := db, server := s, writes := [] } := by
  unfold push_changes
  dsimp only
  rw [h]

/-- C4 amended: a per-item failure during a pull or push pass is not
caught — it aborts the pass at the failing item, leaving the remaining
items unprocessed — and a failed pass never advances the sync metadata:
library_version and last_sync are unchanged. -/
theorem sync_pass_failure_preserves_metadata (s : Server)
    (changes : List (String × Nat)) (now : String) (db : DB) :
    ((pull_changes s changes now db).err ≠ none →
      (pull_changes s changes now db).db.library_version = db.library_version ∧
      (pull_changes s changes now db).db.last_sync = db.last_sync)
    ∧ ((push_changes s now db).err ≠ none →
      (push_changes s now db).db.library_version = db.library_version ∧
      (push_changes s now db).db.last_sync = db.last_sync)
    ∧ (∀ kv rest e, pullKey s now db kv = .error e →
        pull_changes s (kv :: rest) now db = { db := db, err := some e })
    ∧ (∀ vmap row rest st e, pushRow vmap now st row = .error e →
        pushLoop vmap now (row :: rest) st =
          { db := st.db, server := st.server, writes := st.writes, err := some e }) := by
  refine ⟨?_, ?_, ?_, ?_⟩
  · intro herr
    cases h : (pullLoop s now changes db).err with
    | none =>
      exfalso
      apply herr
      unfold pull_changes
      dsimp only
      rw [h]
    | some e =>
      rw [pull_changes_eq_loop_of_err s changes now db e h]
      exact pullLoop_metadata s now changes db
  · intro herr
    cases h : (pushLoop s.itemVersions now db.items
        { db := db, server := s, writes := [] }).err with
    | none =>
      exfalso
      apply herr
      unfold push_changes
      dsimp only
      rw [h]
    | some e =>
      rw [push_changes_eq_loop_of_err s now db e h]
      exact pushLoop_metadata s.itemVersions now db.items
        { db := db, server := s, writes := [] }
  · intro kv rest e h
    unfold pull_changes pullLoop
    dsimp only
    rw [h]
  · intro vmap row rest st e h
    unfold pushLoop
    rw [h]

/-- Witness for the amended C4: the failing concrete pull of the
counterexample aborts with the input database intact. -/
theorem sync_pass_failure_preserves_metadata_witness :
    pull_changes c4Server [("A", 1), ("B", 1)] "t" emptyDB =
      { db := emptyDB, err := some (.fetchFailed "A") } :=
  (sync_pass_failure_preserves_metadata c4Server
      [("A", 1), ("B", 1)] "t" emptyDB).2.2.1 ("A", 1) [("B", 1)]
    (.fetchFailed "A") rfl

/-! Trace characterisation of the migration runner. -/

theorem migrateLoop_cons_gap (v : Nat) (rest : List Nat) (c : Conn)
    (tr : List MigEvent) (hm : MIGRATIONS v = none) :
    migrateLoop (v :: rest) c tr = (c, tr, some (.noMigration v)) := by
  conv_lhs => unfold migrateLoop
  simp only [hm]

theorem migrateLoop_cons_sqlErr (v : Nat) (rest : List Nat) (c : Conn)
    (tr : List MigEvent) (f : SchemaState → Option SchemaState)
    (hm : MIGRATIONS v = some f) (hf : f c.mem = none) :
    migrateLoop (v :: rest) c tr = (c, tr, some (.sqlError v)) := by
  conv_lhs => unfold migrateLoop
  simp only [hm, hf]

theorem migrateLoop_cons_ok (v : Nat) (rest : List Nat) (c : Conn)
    (tr : List MigEvent) (f : SchemaState → Option SchemaState)
    (s' : SchemaState) (hm : MIGRATIONS v = some f) (hf : f c.mem = some s') :
    migrateLoop (v :: rest) c tr =
      migrateLoop rest
        { mem := { s' with user_version := v }, disk := { s' with user_version := v } }
        (tr ++ [.applied v, .setUserVersion v, .committed]) := by
  conv_lhs => unfold migrateLoop
  simp only [hm, hf]

theorem migrateLoop_trace (vs : List Nat) :
    ∀ (c : Conn) (tr : List MigEvent),
      ∃ k ≤ vs.length,
        (migrateLoop vs c tr).2.1 = tr ++ orderlyTrace (vs.take k) ∧
        ((migrateLoop vs c tr).2.2 = none → k = vs.length) := by
  induction vs with
  | nil =>
    intro c tr
    exact ⟨0, Nat.le_refl 0, by simp [migrateLoop, orderlyTrace], fun _ => rfl⟩
  | cons v rest ih =>
    intro c tr
    cases hm : MIGRATIONS v with
    | none =>
      rw [migrateLoop_cons_gap v rest c tr hm]
      refine ⟨0, Nat.zero_le _, by simp [orderlyTrace], ?_⟩
      intro h; cases h
    | some f =>
      cases hf : f c.mem with
      | none =>
        rw [migrateLoop_cons_sqlErr v rest c tr f hm hf]
        refine ⟨0, Nat.zero_le _, by simp [orderlyTrace], ?_⟩
        intro h; cases h
      | some s' =>
        rw [migrateLoop_cons_ok v rest c tr f s' hm hf]
        obtain ⟨k, hk, htr, herr⟩ := ih
          { mem := { s' with user_version := v }, disk := { s' with user_version := v } }
          (tr ++ [.applied v, .setUserVersion v, .committed])
        refine ⟨k + 1, Nat.succ_le_succ hk, ?_, fun h => by rw [herr h]; rfl⟩
        rw [htr, List.take_succ_cons]
        simp [orderlyTrace]

theorem migrateLoop_no_gap_events (vs : List Nat) :
    ∀ (c : Conn) (tr : List MigEvent) (v : Nat), MIGRATIONS v = none →
      (MigEvent.applied v ∉ tr → MigEvent.applied v ∉ (migrateLoop vs c tr).2.1) ∧
      (MigEvent.setUserVersion v ∉ tr →
        MigEvent.setUserVersion v ∉ (migrateLoop vs c tr).2.1) := by
  induction vs with
  | nil => intro c tr v _; exact ⟨fun h => h, fun h => h⟩
  | cons w rest ih =>
    intro c tr v hv
    cases hm : MIGRATIONS w with
    | none =>
      rw [migrateLoop_cons_gap w rest c tr hm]
      exact ⟨fun h => h, fun h => h⟩
    | some f =>
      cases hf : f c.mem with
      | none =>
        rw [migrateLoop_cons_sqlErr w rest c tr f hm hf]
        exact ⟨fun h => h, fun h => h⟩
      | some s' =>
        rw [migrateLoop_cons_ok w rest c tr f s' hm hf]
        have hwv : w ≠ v := by
          intro hwv; rw [hwv, hv] at hm; cases hm
        have ihw := ih
          { mem := { s' with user_version := w }, disk := { s' with user_version := w } }
          (tr ++ [.applied w, .setUserVersion w, .committed]) v hv
        constructor
        · intro hnot
          apply ihw.1
          intro hmem
          rcases List.mem_append.mp hmem with h | h
          · exact hnot h
          · simp at h
            exact hwv h.symm
        · intro hnot
          apply ihw.2
          intro hmem
          rcases List.mem_append.mp hmem with h | h
          · exact hnot h
          · simp at h
            exact hwv h.symm

theorem migrateLoop_gap_err (vs : List Nat) :
    ∀ (c : Conn) (tr : List MigEvent),
      (∃ v ∈ vs, MIGRATIONS v = none) → (migrateLoop vs c tr).2.2 ≠ none := by
  induction vs with
  | nil => intro c tr h; rcases h with ⟨v, hv, _⟩; cases hv
  | cons w rest ih =>
    intro c tr h
    cases hm : MIGRATIONS w with
    | none =>
      rw [migrateLoop_cons_gap w rest c tr hm]
      intro hc; cases hc
    | some f =>
      cases hf : f c.mem with
      | none =>
        rw [migrateLoop_cons_sqlErr w rest c tr f hm hf]
        intro hc; cases hc
      | some s' =>
        rw [migrateLoop_cons_ok w rest c tr f s' hm hf]
        apply ih
        rcases h with ⟨v, hv, hvnone⟩
        rcases List.mem_cons.mp hv with rfl | hv'
        · rw [hvnone] at hm; cases hm
        · exact ⟨v, hv', hvnone⟩

theorem migrateLoop_success_disk (vs : List Nat) :
    ∀ (c : Conn) (tr : List MigEvent), (migrateLoop vs c tr).2.2 = none →
      (migrateLoop vs c tr).1.disk.user_version = vs.getLastD c.disk.user_version := by
  induction vs with
  | nil => intro c tr _; rfl
  | cons w rest ih =>
    intro c tr herr
    cases hm : MIGRATIONS w with
    | none =>
      rw [migrateLoop_cons_gap w rest c tr hm] at herr
      cases herr
    | some f =>
      cases hf : f c.mem with
      | none =>
        rw [migrateLoop_cons_sqlErr w rest c tr f hm hf] at herr
        cases herr
      | some s' =>
        rw [migrateLoop_cons_ok w rest c tr f s' hm hf] at herr ⊢
        rw [List.getLastD_cons]
        exact ih _ _ herr

theorem range'_getLastD (n : Nat) :
    ∀ (a d : Nat), (List.range' a (n + 1)).getLastD d = a + n := by
  induction n with
  | zero => intro a d; rfl
  | succ m ih =>
    intro a d
    rw [List.range'_succ, List.getLastD_cons, ih (a + 1) a]
    omega

/-- C5: the migration runner applies migrations one at a time in strictly
increasing version order — its event trace is the per-version block
sequence (apply, set marker, commit) over a prefix of
current+1 .. target, the whole range when it succeeds; a version with no
registered migration makes the run fail (RuntimeError) and that version
is neither applied nor does the marker ever advance to it; a successful
run ends with the committed marker at the target version. -/
theorem migration_runner_order_and_gap (c : Conn) (current target : Nat) :
    (∃ k, (migrate c current target).2.1 =
        orderlyTrace ((List.range' (current + 1) (target - current)).take k))
    ∧ ((migrate c current target).2.2 = none →
        (migrate c current target).2.1 =
          orderlyTrace (List.range' (current + 1) (target - current)))
    ∧ ((∃ v ∈ List.range' (current + 1) (target - current), MIGRATIONS v = none) →
        (migrate c current target).2.2 ≠ none)
    ∧ (∀ v, MIGRATIONS v = none →
        MigEvent.applied v ∉ (migrate c current target).2.1 ∧
        MigEvent.setUserVersion v ∉ (migrate c current target).2.1)
    ∧ ((migrate c current target).2.2 = none → current < target →
        (migrate c current target).1.disk.user_version = target) := by
  unfold migrate
  obtain ⟨k, hk, htr, herr⟩ :=
    migrateLoop_trace (List.range' (current + 1) (target - current)) c []
  refine ⟨⟨k, by simpa using htr⟩, ?_, migrateLoop_gap_err _ c [], ?_, ?_⟩
  · intro h
    have hkl := herr h
    subst hkl
    rw [htr, List.take_of_length_le (Nat.le_refl _)]
    simp
  · intro v hv
    have h := migrateLoop_no_gap_events
      (List.range' (current + 1) (target - current)) c [] v hv
    exact ⟨h.1 (List.not_mem_nil _), h.2 (List.not_mem_nil _)⟩
  · intro herr2 hlt
    have hd := migrateLoop_success_disk
      (List.range' (current + 1) (target - current)) c [] herr2
    have hg : (List.range' (current + 1) (target - current)).getLastD
        c.disk.user_version = target := by
      have hn : target - current = (target - current - 1) + 1 := by omega
      rw [hn, range'_getLastD]
      omega
    rw [hg] at hd
    exact hd

/-- Fresh connection used to witness C5's gap behaviour: target 5 is past
the last registered migration. -/
theorem migration_runner_order_and_gap_witness :
    (migrate { mem := freshSchema, disk := freshSchema } 0 5).2.2 ≠ none :=
  (migration_runner_order_and_gap { mem := freshSchema, disk := freshSchema } 0 5).2.2.1
    ⟨4, by decide, rfl⟩

/-- C6: opening a freshly created database (marker 0) applies exactly
migrations v1, v2, v3 in that order and produces the full target schema;
opening a database whose marker already equals SCHEMA_VERSION applies no
migrations and returns the connection unchanged. -/
theorem init_db_fresh_and_at_target :
    (init_db freshSchema =
      ({ mem := targetSchema, disk := targetSchema }, orderlyTrace [1, 2, 3], none))
    ∧ (∀ s : SchemaState, s.user_version = SCHEMA_VERSION →
        init_db s = ({ mem := s, disk := s }, [], none)) := by
  constructor
  · decide
  · intro s hs
    unfold init_db
    rw [hs]
    simp

/-- Witness for C6: the already-migrated target schema is left untouched. -/
theorem init_db_fresh_and_at_target_witness :
    init_db targetSchema = ({ mem := targetSchema, disk := targetSchema }, [], none) :=
  init_db_fresh_and_at_target.2 targetSchema rfl

/-- C7: deleting an item removes that item's tags, attachments and notes
(FK cascades) and its full-text entries (explicit delete) while keeping
every dependent row of other items; deleting a collection deletes no item
— it nulls the collection reference of its items, leaves every other item
field intact, and touches no dependent table. -/
theorem delete_item_and_collection_effects (db : DB) (iid cid : Nat) :
    (∀ t ∈ (delete_item db iid).tags, t.item_id ≠ iid)
    ∧ (∀ a ∈ (delete_item db iid).attachments, a.item_id ≠ iid)
    ∧ (∀ n ∈ (delete_item db iid).notes, n.item_id ≠ iid)
    ∧ (∀ f ∈ (delete_item db iid).fulltext, f.item_id ≠ iid)
    ∧ (∀ t ∈ db.tags, t.item_id ≠ iid → t ∈ (delete_item db iid).tags)
    ∧ (∀ a ∈ db.attachments, a.item_id ≠ iid → a ∈ (delete_item db iid).attachments)
    ∧ (∀ n ∈ db.notes, n.item_id ≠ iid → n ∈ (delete_item db iid).notes)
    ∧ (∀ r ∈ (delete_item db iid).items, r.id ≠ iid)
    ∧ ((delete_collection db cid).items.length = db.items.length)
    ∧ (∀ r ∈ (delete_collection db cid).items, r.collection_id ≠ some cid)
    ∧ (∀ r ∈ db.items, ∃ r' ∈ (delete_collection db cid).items,
        r'.id = r.id ∧ r'.key = r.key ∧ r'.title = r.title ∧ r'.data = r.data ∧
        (r.collection_id = some cid → r'.collection_id = none) ∧
        (r.collection_id ≠ some cid → r' = r))
    ∧ ((delete_collection db cid).tags = db.tags)
    ∧ ((delete_collection db cid).notes = db.notes)
    ∧ ((delete_collection db cid).attachments = db.attachments) := by
  refine ⟨?_, ?_, ?_, ?_, ?_, ?_, ?_, ?_, ?_, ?_, ?_, rfl, rfl, rfl⟩
  · intro t ht
    simp only [delete_item] at ht
    have h2 := (List.mem_filter.mp ht).2
    simpa using h2
  · intro a ha
    simp only [delete_item] at ha
    have h2 := (List.mem_filter.mp ha).2
    simpa using h2
  · intro n hn
    simp only [delete_item] at hn
    have h2 := (List.mem_filter.mp hn).2
    simpa using h2
  · intro f hf
    simp only [delete_item] at hf
    have h2 := (List.mem_filter.mp hf).2
    simpa using h2
  · intro t ht hne
    simp only [delete_item]
    exact List.mem_filter.mpr ⟨ht, by simpa using hne⟩
  · intro a ha hne
    simp only [delete_item]
    exact List.mem_filter.mpr ⟨ha, by simpa using hne⟩
  · intro n hn hne
    simp only [delete_item]
    exact List.mem_filter.mpr ⟨hn, by simpa using hne⟩
  · intro r hr
    simp only [delete_item] at hr
    have h2 := (List.mem_filter.mp hr).2
    simpa using h2
  · simp [delete_collection]
  · intro r hr
    simp only [delete_collection] at hr
    rcases List.mem_map.mp hr with ⟨r0, _, rfl⟩
    by_cases h : r0.collection_id = some cid
    · simp [h]
    · simp [h]
  · intro r hr
    by_cases h : r.collection_id = some cid
    · refine ⟨{ r with collection_id := none }, ?_, rfl, rfl, rfl, rfl,
        fun _ => rfl, fun hc => absurd h hc⟩
      simp only [delete_collection]
      have hm := List.mem_map_of_mem
        (fun x => if x.collection_id = some cid then { x with collection_id := none } else x) hr
      simpa [h] using hm
    · refine ⟨r, ?_, rfl, rfl, rfl, rfl, fun hc => absurd hc h, fun _ => rfl⟩
      simp only [delete_collection]
      have hm := List.mem_map_of_mem
        (fun x => if x.collection_id = some cid then { x with collection_id := none } else x) hr
      simpa [h] using hm

/-- Tag of item 1, removed by the C7 witness deletion. -/
def dTag1 : TagRow := { id := 1, item_id := 1, tag := "a" }

/-- Tag of item 2, kept by the C7 witness deletion. -/
def dTag2 : TagRow := { id := 2, item_id := 2, tag := "b" }

/-- Database for the C7 witness: two tags on different items. -/
def dDB : DB :=
  { items := [], collections := [], tags := [dTag1, dTag2], attachments := [],
    notes := [], fulltext := [], library_version := none, last_sync := none }

/-- Witness for C7: deleting item 1 keeps the tag owned by item 2. -/
theorem delete_item_and_collection_effects_witness :
    dTag2 ∈ (delete_item dDB 1).tags :=
  (delete_item_and_collection_effects dDB 1 5).2.2.2.2.1 dTag2 (by decide) (by decide)

/-- Keys of the items table, in row order. -/
def itemKeys (db : DB) : List String := db.items.map ItemRow.key

theorem itemKeys_update (db : DB) (i : Nat) (p : ItemPatch) :
    itemKeys (update_item db i p) = itemKeys db := by
  unfold itemKeys update_item
  rw [List.map_map]
  apply List.map_congr_left
  intro r _
  by_cases hq : r.id = i
  · simp [hq, applyPatch]
  · simp [hq]

theorem itemKeys_add (db : DB) (key title : String) (data : ZItem)
    (cid : Option Nat) (v : Nat) (sa : Option String) :
    itemKeys (add_item db key title data cid v sa).1 = itemKeys db ++ [key] := by
  unfold itemKeys add_item
  simp

theorem pullKey_keys (s : Server) (now : String) (db : DB) (kv : String × Nat)
    (db' : DB) (h : pullKey s now db kv = .ok db') :
    itemKeys db' = itemKeys db ∨
    (itemKeys db' = itemKeys db ++ [kv.1] ∧ kv.1 ∉ itemKeys db) := by
  unfold pullKey at h
  split at h
  · cases h
  · split at h
    · rename_i hfind
      injection h with h
      subst h
      right
      refine ⟨itemKeys_add db kv.1 _ _ none kv.2 (some now), ?_⟩
      intro hmem
      rcases List.mem_map.mp hmem with ⟨r, hr, hkey⟩
      exact findByKey_none_forall hfind r hr hkey
    · split at h
      · cases h
      · split at h
        · injection h with h
          subst h
          exact Or.inl (itemKeys_update db _ _)
        · injection h with h
          subst h
          exact Or.inl rfl

theorem pullLoop_keys (s : Server) (now : String) (l : List (String × Nat)) :
    ∀ db : DB, (itemKeys db).Nodup →
      (itemKeys (pullLoop s now l db).db).Nodup ∧
      ∀ k ∈ itemKeys db, k ∈ itemKeys (pullLoop s now l db).db := by
  induction l with
  | nil => intro db h; exact ⟨h, fun k hk => hk⟩
  | cons kv rest ih =>
    intro db h
    unfold pullLoop
    cases hstep : pullKey s now db kv with
    | error e => exact ⟨h, fun k hk => hk⟩
    | ok db' =>
      rcases pullKey_keys s now db kv db' hstep with heq | ⟨heq, hnin⟩
      · obtain ⟨hh1, hh2⟩ := ih db' (heq.symm ▸ h)
        exact ⟨hh1, fun k hk => hh2 k (heq.symm ▸ hk)⟩
      · have h' : (itemKeys db').Nodup := by
          rw [heq]
          refine List.Nodup.append h (List.nodup_singleton _) ?_
          intro x hx hx2
          simp at hx2
          subst hx2
          exact hnin hx
        obtain ⟨hh1, hh2⟩ := ih db' h'
        refine ⟨hh1, fun k hk => hh2 k ?_⟩
        rw [heq]
        exact List.mem_append_left _ hk

/-- C8: a pull never duplicates an item key — if the items table holds
pairwise distinct keys before a pull, it does so afterwards, and every
pre-existing key is still present: an already-known key is only ever
updated or skipped, never inserted a second time. -/
theorem pull_preserves_key_uniqueness (s : Server) (changes : List (String × Nat))
    (now : String) (db : DB) (hnd : (itemKeys db).Nodup) :
    (itemKeys (pull_changes s changes now db).db).Nodup ∧
    ∀ k ∈ itemKeys db, k ∈ itemKeys (pull_changes s changes now db).db := by
  obtain ⟨h1, h2⟩ := pullLoop_keys s now changes db hnd
  unfold pull_changes
  dsimp only
  cases herr : (pullLoop s now changes db).err with
  | some e => exact ⟨h1, h2⟩
  | none => exact ⟨h1, h2⟩

/-- Witness for C8: pulling key "K" (already present) over `wDB` keeps the
key present exactly once (the keys list stays duplicate-free). -/
theorem pull_preserves_key_uniqueness_witness :
    (itemKeys (pull_changes wServer [("K", 5)] "t" wDB).db).Nodup ∧
    "K" ∈ itemKeys (pull_changes wServer [("K", 5)] "t" wDB).db :=
  ⟨(pull_preserves_key_uniqueness wServer [("K", 5)] "t" wDB (by decide)).1,
   (pull_preserves_key_uniqueness wServer [("K", 5)] "t" wDB (by decide)).2
     "K" (by decide)⟩

/-- C9: during a push, a local item row whose stored version is NULL is
compared as if its version were 0 (`row["version"] or 0`), so with any
positive remote version it takes the remote-newer branch: no error, no
remote write, and the row is overwritten from the fetched remote copy. -/
theorem push_null_version_pulls_remote (vmap : List (String × Nat))
    (now : String) (st : PushState) (row : ItemRow) (m : Nat) (item : ZItem)
    (hrow : row ∈ st.db.items)
    (hv : row.version = none)
    (hm : lookupVer vmap row.key = some m)
    (hpos : 0 < m)
    (hfetch : st.server.fetchItem row.key = some item) :
    ∃ st', pushRow vmap now st row = .ok st' ∧ st'.server = st.server ∧
      st'.writes = st.writes ∧
      ∃ r ∈ st'.db.items, r.id = row.id ∧ r.data = item ∧
        r.version = some item.version ∧ r.synced_at = some now := by
  have hlt : row.version.getD 0 < (lookupVer vmap row.key).getD 0 := by
    rw [hv, hm]
    exact hpos
  refine ⟨_, pushRow_remote_newer_eq vmap now st row item hlt hfetch, rfl, rfl, ?_⟩
  exact ⟨_, mem_update_item st.db row _ hrow, rfl, rfl, rfl, rfl⟩

/-- Local row with a NULL stored version, for the C9 witness. -/
def nullRow : ItemRow :=
  { id := 1, key := "K1", title := "old", collection_id := none,
    data := default, version := none, synced_at := none }

/-- Database holding only `nullRow`. -/
def nullDB : DB :=
  { items := [nullRow], collections := [], tags := [], attachments := [],
    notes := [], fulltext := [], library_version := none, last_sync := none }

/-- Witness for C9: the NULL-version row against remote version 2 is
overwritten from the fetched remote copy. -/
theorem push_null_version_pulls_remote_witness :
    ∃ st', pushRow cxServer.itemVersions "t"
        { db := nullDB, server := cxServer, writes := [] } nullRow = .ok st' ∧
      st'.server = cxServer ∧ st'.writes = [] ∧
      ∃ r ∈ st'.db.items, r.id = nullRow.id ∧ r.data = cxItemNew ∧
        r.version = some cxItemNew.version ∧ r.synced_at = some "t" :=
  push_null_version_pulls_remote cxServer.itemVersions "t"
    { db := nullDB, server := cxServer, writes := [] } nullRow 2 cxItemNew
    (by decide) rfl (by decide) (by decide) (by decide)

/-- Relation stating that every items row of `db'` either descends from a
row of `db` with the same id, key and collection reference, or carries a
NULL collection reference. -/
def colRel (db db' : DB) : Prop :=
  ∀ r' ∈ db'.items,
    (∃ r ∈ db.items, r.id = r'.id ∧ r.key = r'.key ∧
      r.collection_id = r'.collection_id) ∨
    r'.collection_id = none

theorem colRel_refl (db : DB) : colRel db db :=
  fun r' h => Or.inl ⟨r', h, rfl, rfl, rfl⟩

theorem colRel_trans {a b c : DB} (h1 : colRel a b) (h2 : colRel b c) :
    colRel a c := by
  intro r' hr'
  rcases h2 r' hr' with ⟨r, hr, hid, hkey, hcol⟩ | hnone
  · rcases h1 r hr with ⟨r0, hr0, hid0, hkey0, hcol0⟩ | hnone0
    · exact Or.inl ⟨r0, hr0, hid0.trans hid, hkey0.trans hkey, hcol0.trans hcol⟩
    · exact Or.inr (hcol.symm.trans hnone0)
  · exact Or.inr hnone

theorem update_item_colRel (db : DB) (i : Nat) (p : ItemPatch)
    (hp : p.collection_id = none) : colRel db (update_item db i p) := by
  intro r' hr'
  simp only [update_item] at hr'
  rcases List.mem_map.mp hr' with ⟨r0, hr0, rfl⟩
  left
  by_cases hq : r0.id = i
  · refine ⟨r0, hr0, ?_, ?_, ?_⟩ <;> simp [hq, applyPatch, hp]
  · refine ⟨r0, hr0, ?_, ?_, ?_⟩ <;> simp [hq]

theorem pullKey_colRel (s : Server) (now : String) (db : DB) (kv : String × Nat)
    (db' : DB) (h : pullKey s now db kv = .ok db') : colRel db db' := by
  unfold pullKey at h
  split at h
  · cases h
  · split at h
    · injection h with h
      subst h
      intro r' hr'
      simp only [add_item] at hr'
      rcases List.mem_append.mp hr' with hl | hr
      · exact Or.inl ⟨r', hl, rfl, rfl, rfl⟩
      · right
        rw [List.mem_singleton.mp hr]
    · split at h
      · cases h
      · split at h
        · injection h with h
          subst h
          exact update_item_colRel db _ _ rfl
        · injection h with h
          subst h
          exact colRel_refl db

theorem pullLoop_colRel (s : Server) (now : String) (l : List (String × Nat)) :
    ∀ db : DB, colRel db (pullLoop s now l db).db := by
  induction l with
  | nil => intro db; exact colRel_refl db
  | cons kv rest ih =>
    intro db
    unfold pullLoop
    cases hstep : pullKey s now db kv with
    | error e => exact colRel_refl db
    | ok db' => exact colRel_trans (pullKey_colRel s now db kv db' hstep) (ih db')

/-- C10: every items row present after a pull either stems from a
pre-pull row with the same id and key, whose collection reference the
pull left untouched, or is a newly inserted row whose collection
reference is NULL — pull never assigns an item to a local collection. -/
theorem pull_leaves_collection_null (s : Server) (changes : List (String × Nat))
    (now : String) (db : DB) :
    ∀ r' ∈ (pull_changes s changes now db).db.items,
      (∃ r ∈ db.items, r.id = r'.id ∧ r.key = r'.key ∧
        r.collection_id = r'.collection_id) ∨
      r'.collection_id = none := by
  have hloop := pullLoop_colRel s now changes db
  unfold pull_changes
  dsimp only
  cases herr : (pullLoop s now changes db).err with
  | some e => exact hloop
  | none => exact hloop

/-- The row a pull of key "K" inserts into the empty database. -/
def wNewRow : ItemRow :=
  { id := 1, key := "K", title := "T", collection_id := none,
    data := wItem, version := some 5, synced_at := some "t" }

/-- Witness for C10: the freshly pulled row of the empty database carries
a NULL collection reference. -/
theorem pull_leaves_collection_null_witness :
    (∃ r ∈ emptyDB.items, r.id = wNewRow.id ∧ r.key = wNewRow.key ∧
      r.collection_id = wNewRow.collection_id) ∨
    wNewRow.collection_id = none :=
  pull_leaves_collection_null wServer [("K", 5)] "t" emptyDB wNewRow (by decide)

end Pyzotplus
